import Mathlib

/-!
Shallow embedding of the health-factor / liquidation-simulation engine of a
DeFi lending risk service (Aave V3 analytics).

Source modules embedded here:
* services/api/src/api/domain/health_factor.py
  (UserPosition, UserHealthFactor, parse_user_reserves, simulate_liquidations)
* services/api/src/api/routes/health_factors.py
  (valid-population filtering, at-risk selection, distribution buckets)
* services/api/src/api/jobs/ingest_snapshots.py
  (the same filtering with the additional minimum-collateral floor, buckets)

Python's exact Decimal arithmetic is modelled by the rationals; booleans stay
Bool; Python's None is Option.none; dictionaries keyed by user address are
modelled as insertion-ordered association lists.  All model functions are
computable, so concrete populations evaluate inside simp and norm_num.
-/

/-- Python str.lower(), modelled character-wise so that it reduces in the
kernel; addresses and symbols in this system are ASCII. -/
def String.pyLower (s : String) : String := ⟨s.data.map Char.toLower⟩

namespace RiskEngine

/-- Prices arrive scaled by 1e8 (health_factor.py, PRICE_DECIMALS). -/
def PRICE_DECIMALS : ℚ := 10 ^ 8

/-- Basis-point scale for risk parameters (health_factor.py, PERCENTAGE_FACTOR). -/
def PERCENTAGE_FACTOR : ℚ := 10 ^ 4

/-- One user's stake in one reserve (dataclass UserPosition). -/
structure UserPosition where
  user_address : String
  asset_symbol : String
  asset_address : String
  decimals : ℕ
  collateral_balance : ℚ
  variable_debt : ℚ
  stable_debt : ℚ
  ltv : ℚ
  liquidation_threshold : ℚ
  liquidation_bonus : ℚ
  price_usd : ℚ
  is_collateral_enabled : Bool
deriving DecidableEq

namespace UserPosition

/-- UserPosition.total_debt: variable plus stable debt. -/
def total_debt (p : UserPosition) : ℚ := p.variable_debt + p.stable_debt

/-- UserPosition.collateral_usd: zero when the position is not
collateral-enabled, else balance descaled by asset decimals times price
descaled by 1e8. -/
def collateral_usd (p : UserPosition) : ℚ :=
  if p.is_collateral_enabled then
    (p.collateral_balance / (10 : ℚ) ^ p.decimals) * (p.price_usd / PRICE_DECIMALS)
  else 0

/-- UserPosition.debt_usd. -/
def debt_usd (p : UserPosition) : ℚ :=
  (p.total_debt / (10 : ℚ) ^ p.decimals) * (p.price_usd / PRICE_DECIMALS)

/-- UserPosition.liquidation_threshold_decimal. -/
def liquidation_threshold_decimal (p : UserPosition) : ℚ :=
  p.liquidation_threshold / PERCENTAGE_FACTOR

/-- UserPosition.liquidation_bonus_decimal. -/
def liquidation_bonus_decimal (p : UserPosition) : ℚ :=
  p.liquidation_bonus / PERCENTAGE_FACTOR

end UserPosition

/-- A user's aggregate over all positions (dataclass UserHealthFactor). -/
structure UserHealthFactor where
  user_address : String
  positions : List UserPosition
deriving DecidableEq

namespace UserHealthFactor

/-- UserHealthFactor.total_collateral_usd. -/
def total_collateral_usd (u : UserHealthFactor) : ℚ :=
  (u.positions.map UserPosition.collateral_usd).sum

/-- UserHealthFactor.total_collateral_threshold_usd: the generator filters on
is_collateral_enabled before summing collateral_usd times the threshold. -/
def total_collateral_threshold_usd (u : UserHealthFactor) : ℚ :=
  ((u.positions.filter (fun p => p.is_collateral_enabled)).map
    (fun p => p.collateral_usd * p.liquidation_threshold_decimal)).sum

/-- UserHealthFactor.total_debt_usd. -/
def total_debt_usd (u : UserHealthFactor) : ℚ :=
  (u.positions.map UserPosition.debt_usd).sum

/-- UserHealthFactor.health_factor: None when total debt is exactly zero. -/
def health_factor (u : UserHealthFactor) : Option ℚ :=
  if u.total_debt_usd = 0 then none
  else some (u.total_collateral_threshold_usd / u.total_debt_usd)

/-- UserHealthFactor.is_liquidatable: hf is not None and hf < 1. -/
def is_liquidatable (u : UserHealthFactor) : Bool :=
  match u.health_factor with
  | none => false
  | some hf => decide (hf < 1)

/-- UserHealthFactor.simulate_price_drop: rebuilds matching positions with the
price multiplied by (100 - drop_percent)/100, copies the rest, and returns a
fresh aggregate (the Python original is left untouched; the model is pure, so
non-mutation is inherent). -/
def simulate_price_drop (u : UserHealthFactor) (asset_address : String)
    (drop_percent : ℚ) : UserHealthFactor :=
  let multiplier : ℚ := (100 - drop_percent) / 100
  { user_address := u.user_address
    positions := u.positions.map (fun p =>
      if p.asset_address.pyLower = asset_address.pyLower then
        { user_address := p.user_address
          asset_symbol := p.asset_symbol
          asset_address := p.asset_address
          decimals := p.decimals
          collateral_balance := p.collateral_balance
          variable_debt := p.variable_debt
          stable_debt := p.stable_debt
          ltv := p.ltv
          liquidation_threshold := p.liquidation_threshold
          liquidation_bonus := p.liquidation_bonus
          price_usd := p.price_usd * multiplier
          is_collateral_enabled := p.is_collateral_enabled }
      else p) }

end UserHealthFactor

/-- One record of simulate_liquidations' affected_users list (the dict literal
built in the loop); float conversion at this boundary is modelled exactly. -/
structure AffectedUser where
  user_address : String
  hf_before : Option ℚ
  hf_after : ℚ
  collateral_usd : ℚ
  debt_usd : ℚ
deriving DecidableEq

/-- Result record of one simulation run (dataclass LiquidationSimulation). -/
structure LiquidationSimulation where
  price_drop_percent : ℚ
  asset_symbol : String
  asset_address : String
  original_price_usd : ℚ
  simulated_price_usd : ℚ
  users_at_risk : ℕ
  users_liquidatable : ℕ
  total_collateral_at_risk_usd : ℚ
  total_debt_at_risk_usd : ℚ
  close_factor : ℚ
  liquidation_bonus : ℚ
  estimated_liquidatable_debt_usd : ℚ
  estimated_liquidator_profit_usd : ℚ
  affected_users : List AffectedUser
deriving DecidableEq

/-- Raw nested price object of a subgraph reserve; none for a missing price
object, and priceInUsd is none when the field is missing or empty. -/
structure RawPrice where
  priceInUsd : Option ℚ
deriving DecidableEq

/-- Raw reserve object nested in a subgraph userReserve record. -/
structure RawReserve where
  symbol : String
  underlyingAsset : String
  decimals : ℕ
  baseLTVasCollateral : ℚ
  reserveLiquidationThreshold : ℚ
  reserveLiquidationBonus : ℚ
  usageAsCollateralEnabled : Bool
  price : Option RawPrice
deriving DecidableEq

/-- One raw userReserve record from the subgraph. -/
structure RawUserReserve where
  userId : String
  reserve : RawReserve
  currentATokenBalance : ℚ
  currentVariableDebt : ℚ
  currentStableDebt : ℚ
  usageAsCollateralEnabledOnUser : Bool
deriving DecidableEq

/-- The guard in parse_user_reserves: a record is kept iff its reserve has a
price object with a usable priceInUsd. -/
def usableRecord (r : RawUserReserve) : Bool :=
  match r.reserve.price with
  | none => false
  | some pr => match pr.priceInUsd with
    | none => false
    | some _ => true

/-- The kept price of a usable record (0 when unusable; never read then). -/
def recordPrice (r : RawUserReserve) : ℚ :=
  match r.reserve.price with
  | none => 0
  | some pr => match pr.priceInUsd with
    | none => 0
    | some q => q

/-- The UserPosition built from one raw record in parse_user_reserves. -/
def mkPosition (r : RawUserReserve) : UserPosition :=
  { user_address := r.userId.pyLower
    asset_symbol := r.reserve.symbol
    asset_address := r.reserve.underlyingAsset.pyLower
    decimals := r.reserve.decimals
    collateral_balance := r.currentATokenBalance
    variable_debt := r.currentVariableDebt
    stable_debt := r.currentStableDebt
    ltv := r.reserve.baseLTVasCollateral
    liquidation_threshold := r.reserve.reserveLiquidationThreshold
    liquidation_bonus := r.reserve.reserveLiquidationBonus
    price_usd := recordPrice r
    is_collateral_enabled :=
      r.usageAsCollateralEnabledOnUser && r.reserve.usageAsCollateralEnabled }

/-- The users dict of parse_user_reserves, modelled as an insertion-ordered
association list; appending a position to an existing key mirrors
users[user_id].positions.append(position). -/
def addPosition : List (String × UserHealthFactor) → String → UserPosition →
    List (String × UserHealthFactor)
  | [], k, pos => [(k, ⟨k, [pos]⟩)]
  | (k0, u) :: rest, k, pos =>
    if k0 = k then (k0, ⟨u.user_address, u.positions ++ [pos]⟩) :: rest
    else (k0, u) :: addPosition rest k pos

/-- Processing of one raw record inside the parse loop. -/
def parseStep (acc : List (String × UserHealthFactor)) (r : RawUserReserve) :
    List (String × UserHealthFactor) :=
  if usableRecord r then addPosition acc r.userId.pyLower (mkPosition r)
  else acc

/-- The parse loop with its accumulating dict. -/
def parseAux (acc : List (String × UserHealthFactor)) :
    List RawUserReserve → List (String × UserHealthFactor)
  | [] => acc
  | r :: rest => parseAux (parseStep acc r) rest

/-- parse_user_reserves: groups usable records by lowercased user address. -/
def parse_user_reserves (raw_reserves : List RawUserReserve) :
    List (String × UserHealthFactor) :=
  parseAux [] raw_reserves

/-- The inner loop of the original-price scan in simulate_liquidations: the
first position of one user matching the asset, its price descaled by 1e8. -/
def firstMatchPrice (u : UserHealthFactor) (asset_address : String) : Option ℚ :=
  match u.positions.find? (fun p => p.asset_address.pyLower = asset_address.pyLower) with
  | some p => some (p.price_usd / PRICE_DECIMALS)
  | none => none

/-- The outer loop of the original-price scan: original_price starts at the
accumulator, is overwritten by each user's first matching position's price,
and the scan stops as soon as the current value is positive. -/
def scanOriginalPrice (asset_address : String) :
    List UserHealthFactor → ℚ → ℚ
  | [], acc => acc
  | u :: rest, acc =>
    let acc2 := match firstMatchPrice u asset_address with
      | some q => q
      | none => acc
    if 0 < acc2 then acc2 else scanOriginalPrice asset_address rest acc2

/-- The affected-user dict built inside the simulate_liquidations loop;
float(hf_before) if hf_before else None maps a zero pre-shock health factor
to None just like a missing one. -/
def affectedEntry (u sim : UserHealthFactor) (hf_after : ℚ) : AffectedUser :=
  { user_address := u.user_address
    hf_before := match u.health_factor with
      | none => none
      | some q => if q = 0 then none else some q
    hf_after := hf_after
    collateral_usd := sim.total_collateral_usd
    debt_usd := sim.total_debt_usd }

/-- The main loop of simulate_liquidations: skip zero-debt users, project the
price drop, and when the projected health factor exists and is below one,
append the affected entry and accumulate the projected totals. -/
def simLoop (asset_address : String) (price_drop_percent : ℚ) :
    List UserHealthFactor → List AffectedUser × ℚ × ℚ →
    List AffectedUser × ℚ × ℚ
  | [], acc => acc
  | u :: rest, (aff, tc, td) =>
    if u.total_debt_usd = 0 then
      simLoop asset_address price_drop_percent rest (aff, tc, td)
    else
      let sim := u.simulate_price_drop asset_address price_drop_percent
      match sim.health_factor with
      | some hf_after =>
        if hf_after < 1 then
          simLoop asset_address price_drop_percent rest
            (aff ++ [affectedEntry u sim hf_after],
             tc + sim.total_collateral_usd, td + sim.total_debt_usd)
        else simLoop asset_address price_drop_percent rest (aff, tc, td)
      | none => simLoop asset_address price_drop_percent rest (aff, tc, td)

/-- The comparison used by sorted(affected, key=lambda x: x["hf_after"]). -/
def hfAfterLE (a b : AffectedUser) : Prop := a.hf_after ≤ b.hf_after

instance : DecidableRel hfAfterLE :=
  fun a b => inferInstanceAs (Decidable (a.hf_after ≤ b.hf_after))

instance : IsTotal AffectedUser hfAfterLE := ⟨fun a b => le_total a.hf_after b.hf_after⟩

instance : IsTrans AffectedUser hfAfterLE :=
  ⟨fun _ _ _ hab hbc => le_trans hab hbc⟩

/-- simulate_liquidations over the population (the dict's values in insertion
order).  Python's stable sort is modelled by insertion sort; no claim depends
on the relative order of ties.  The Python defaults close_factor 0.5 and
liquidation_bonus 0.05 are passed explicitly here. -/
def simulate_liquidations (users : List UserHealthFactor)
    (asset_address asset_symbol : String) (price_drop_percent : ℚ)
    (close_factor liquidation_bonus : ℚ) :
    LiquidationSimulation :=
  let original_price := scanOriginalPrice asset_address users 0
  let multiplier := (100 - price_drop_percent) / 100
  let simulated_price := original_price * multiplier
  let res := simLoop asset_address price_drop_percent users ([], 0, 0)
  let affected := res.1
  let total_collateral_at_risk := res.2.1
  let total_debt_at_risk := res.2.2
  let estimated_liquidatable_debt := total_debt_at_risk * close_factor
  let estimated_liquidator_profit := estimated_liquidatable_debt * liquidation_bonus
  { price_drop_percent := price_drop_percent
    asset_symbol := asset_symbol
    asset_address := asset_address
    original_price_usd := original_price
    simulated_price_usd := simulated_price
    users_at_risk := affected.length
    users_liquidatable := affected.length
    total_collateral_at_risk_usd := total_collateral_at_risk
    total_debt_at_risk_usd := total_debt_at_risk
    close_factor := close_factor
    liquidation_bonus := liquidation_bonus
    estimated_liquidatable_debt_usd := estimated_liquidatable_debt
    estimated_liquidator_profit_usd := estimated_liquidator_profit
    affected_users := affected.insertionSort hfAfterLE }

/-- One row of the health-factor distribution histogram. -/
structure HFBucket where
  bucket : String
  count : ℕ
  total_collateral_usd : ℚ
  total_debt_usd : ℚ
deriving DecidableEq

/-- The fixed bucket table of _build_distribution_filtered
(health_factors.py) and of the ingest job (ingest_snapshots.py); both end
with the band labelled above 5.0 bounded by the literal 999999. -/
def bucketBounds : List (String × ℚ × ℚ) :=
  [("1.0-1.1", 1, 11 / 10),
   ("1.1-1.25", 11 / 10, 5 / 4),
   ("1.25-1.5", 5 / 4, 3 / 2),
   ("1.5-2.0", 3 / 2, 2),
   ("2.0-3.0", 2, 3),
   ("3.0-5.0", 3, 5),
   ("> 5.0", 5, 999999)]

/-- Membership test of one user in one bucket: health factor present and
low ≤ hf < high. -/
def inBucket (low high : ℚ) (u : UserHealthFactor) : Bool :=
  match u.health_factor with
  | none => false
  | some hf => decide (low ≤ hf) && decide (hf < high)

/-- _build_distribution_filtered (health_factors.py) and the bucket loop of
the ingest job (ingest_snapshots.py): identical code at both sites. -/
def buildDistributionFiltered (users : List UserHealthFactor) : List HFBucket :=
  bucketBounds.map (fun b =>
    let matching := users.filter (inBucket b.2.1 b.2.2)
    { bucket := b.1
      count := matching.length
      total_collateral_usd := (matching.map UserHealthFactor.total_collateral_usd).sum
      total_debt_usd := (matching.map UserHealthFactor.total_debt_usd).sum })

/-- The health-factor inclusion test shared by the API route and the ingest
job: no debt, or no health factor, or health factor above one. -/
def hfInclusionOk (u : UserHealthFactor) : Bool :=
  decide (u.total_debt_usd = 0) ||
    (match u.health_factor with
     | none => true
     | some hf => decide (1 < hf))

/-- The exclusion test of users_excluded: positive debt and a health factor
at most one. -/
def hfExcluded (u : UserHealthFactor) : Bool :=
  decide (0 < u.total_debt_usd) &&
    (match u.health_factor with
     | none => false
     | some hf => decide (hf ≤ 1))

/-- valid_users of the API route (health_factors.py): only the health-factor
filter, no collateral floor. -/
def validUsersRoute (users : List UserHealthFactor) : List UserHealthFactor :=
  users.filter hfInclusionOk

/-- users_excluded of the API route (health_factors.py). -/
def usersExcludedRoute (users : List UserHealthFactor) : List UserHealthFactor :=
  users.filter hfExcluded

/-- The minimum-collateral dust floor of the ingest job. -/
def MIN_COLLATERAL_USD : ℚ := 100

/-- valid_users of the ingest job (ingest_snapshots.py): collateral at least
the floor, and the health-factor filter. -/
def validUsersIngest (users : List UserHealthFactor) : List UserHealthFactor :=
  users.filter (fun u =>
    decide (MIN_COLLATERAL_USD ≤ u.total_collateral_usd) && hfInclusionOk u)

/-- users_excluded of the ingest job: the floor is applied here too. -/
def usersExcludedIngest (users : List UserHealthFactor) : List UserHealthFactor :=
  users.filter (fun u =>
    decide (MIN_COLLATERAL_USD ≤ u.total_collateral_usd) && hfExcluded u)

/-- users_with_debt, computed from a valid population at both sites. -/
def usersWithDebt (valid : List UserHealthFactor) : List UserHealthFactor :=
  valid.filter (fun u => decide (0 < u.total_debt_usd))

/-- The at-risk test of both sites: u.health_factor and 1.0 < hf < 1.5, with
Python truthiness sending a missing or zero health factor to false. -/
def atRiskTest (u : UserHealthFactor) : Bool :=
  match u.health_factor with
  | none => false
  | some hf => if hf = 0 then false else decide (1 < hf) && decide (hf < 3 / 2)

/-- users_at_risk, computed from users_with_debt at both sites. -/
def usersAtRisk (valid : List UserHealthFactor) : List UserHealthFactor :=
  (usersWithDebt valid).filter atRiskTest

/-- The sort key of at_risk_sorted: u.health_factor or Decimal 999, with
Python truthiness sending a missing or zero health factor to 999. -/
def atRiskKey (u : UserHealthFactor) : ℚ :=
  match u.health_factor with
  | none => 999
  | some hf => if hf = 0 then 999 else hf

/-- The comparison used to sort at-risk users. -/
def atRiskLE (a b : UserHealthFactor) : Prop := atRiskKey a ≤ atRiskKey b

instance : DecidableRel atRiskLE :=
  fun a b => inferInstanceAs (Decidable (atRiskKey a ≤ atRiskKey b))

instance : IsTotal UserHealthFactor atRiskLE := ⟨fun a b => le_total (atRiskKey a) (atRiskKey b)⟩

instance : IsTrans UserHealthFactor atRiskLE :=
  ⟨fun _ _ _ hab hbc => le_trans hab hbc⟩

/-- at_risk_sorted of the API route (the ingest job additionally truncates to
one hundred entries after the same sort). -/
def atRiskSorted (valid : List UserHealthFactor) : List UserHealthFactor :=
  (usersAtRisk valid).insertionSort atRiskLE

/-! ### Hand-built populations used in concrete theorems -/

/-- 1 WETH of collateral at 2000 dollars with threshold 82.5 percent. -/
def wethPos : UserPosition :=
  { user_address := "0x123", asset_symbol := "WETH", asset_address := "0xweth",
    decimals := 18, collateral_balance := 10 ^ 18, variable_debt := 0,
    stable_debt := 0, ltv := 8000, liquidation_threshold := 8250,
    liquidation_bonus := 10500, price_usd := 200000000000,
    is_collateral_enabled := true }

/-- A USDC borrow position at one dollar with the given raw debt. -/
def usdcPos (debt : ℚ) : UserPosition :=
  { user_address := "0x123", asset_symbol := "USDC", asset_address := "0xusdc",
    decimals := 6, collateral_balance := 0, variable_debt := debt,
    stable_debt := 0, ltv := 8000, liquidation_threshold := 8500,
    liquidation_bonus := 10400, price_usd := 100000000,
    is_collateral_enabled := false }

/-- The reference user with health factor 1.65. -/
def userSafe : UserHealthFactor := ⟨"0x123", [wethPos, usdcPos (1000 * 10 ^ 6)]⟩

/-- The reference user with health factor 1.1. -/
def userTight : UserHealthFactor := ⟨"0x123", [wethPos, usdcPos (1500 * 10 ^ 6)]⟩

end RiskEngine

namespace RiskEngine

open UserHealthFactor

/-- Claim C1: for every aggregate, health_factor is none exactly when total
debt is zero and otherwise is the threshold-weighted collateral sum over the
debt sum, the numerator ranging over collateral-enabled positions only and the
denominator over all positions; is_liquidatable holds exactly when the health
factor exists and is strictly below one. -/
theorem C1_health_factor_characterization (u : UserHealthFactor) :
    (u.health_factor = none ↔ u.total_debt_usd = 0) ∧
    (∀ q : ℚ, u.health_factor = some q ↔
      (u.total_debt_usd ≠ 0 ∧
        q = u.total_collateral_threshold_usd / u.total_debt_usd)) ∧
    u.total_collateral_threshold_usd =
      ((u.positions.filter (fun p => p.is_collateral_enabled)).map
        (fun p => p.collateral_usd * p.liquidation_threshold_decimal)).sum ∧
    u.total_debt_usd = (u.positions.map UserPosition.debt_usd).sum ∧
    (u.is_liquidatable = true ↔ ∃ q, u.health_factor = some q ∧ q < 1) := by
  refine ⟨?_, ?_, rfl, rfl, ?_⟩
  · unfold UserHealthFactor.health_factor
    split <;> simp_all
  · intro q
    unfold UserHealthFactor.health_factor
    split <;> simp_all [eq_comm]
  · unfold UserHealthFactor.is_liquidatable
    cases h : u.health_factor <;> simp [h]

/-- Claim C2: simulate_price_drop rescales the price of exactly the
case-insensitively matching positions by (100 - drop)/100, keeps every other
stored field of every position, leaves the original aggregate untouched (the
model is pure), and a zero drop leaves the health factor literally equal. -/
theorem C2_simulate_price_drop_spec (u : UserHealthFactor) (addr : String)
    (d : ℚ) :
    (u.simulate_price_drop addr d).user_address = u.user_address ∧
    List.Forall₂ (fun p p2 =>
      (p.asset_address.pyLower = addr.pyLower →
        p2.price_usd = p.price_usd * ((100 - d) / 100) ∧
        p2.user_address = p.user_address ∧
        p2.asset_symbol = p.asset_symbol ∧
        p2.asset_address = p.asset_address ∧
        p2.decimals = p.decimals ∧
        p2.collateral_balance = p.collateral_balance ∧
        p2.variable_debt = p.variable_debt ∧
        p2.stable_debt = p.stable_debt ∧
        p2.ltv = p.ltv ∧
        p2.liquidation_threshold = p.liquidation_threshold ∧
        p2.liquidation_bonus = p.liquidation_bonus ∧
        p2.is_collateral_enabled = p.is_collateral_enabled) ∧
      (p.asset_address.pyLower ≠ addr.pyLower → p2 = p))
      u.positions (u.simulate_price_drop addr d).positions ∧
    (u.simulate_price_drop addr 0).health_factor = u.health_factor := by
  refine ⟨rfl, ?_, ?_⟩
  · unfold UserHealthFactor.simulate_price_drop
    rw [List.forall₂_map_right_iff]
    rw [List.forall₂_same]
    intro p _
    constructor
    · intro hm
      simp only [hm, if_pos rfl]
      exact ⟨rfl, rfl, rfl, rfl, rfl, rfl, rfl, rfl, rfl, rfl, rfl, rfl⟩
    · intro hm
      simp only [if_neg hm]
  · have hpos : (u.simulate_price_drop addr 0).positions = u.positions := by
      unfold UserHealthFactor.simulate_price_drop
      simp only
      have h1 : ((100 : ℚ) - 0) / 100 = 1 := by norm_num
      have h2 : ∀ p ∈ u.positions,
          (if p.asset_address.pyLower = addr.pyLower then
            { user_address := p.user_address, asset_symbol := p.asset_symbol,
              asset_address := p.asset_address, decimals := p.decimals,
              collateral_balance := p.collateral_balance,
              variable_debt := p.variable_debt, stable_debt := p.stable_debt,
              ltv := p.ltv, liquidation_threshold := p.liquidation_threshold,
              liquidation_bonus := p.liquidation_bonus,
              price_usd := p.price_usd * ((100 - 0) / 100),
              is_collateral_enabled := p.is_collateral_enabled }
          else p) = id p := by
        intro p _
        split
        · rw [h1, mul_one]; rfl
        · rfl
      rw [List.map_congr_left h2, List.map_id]
    unfold UserHealthFactor.health_factor UserHealthFactor.total_debt_usd
      UserHealthFactor.total_collateral_threshold_usd
    rw [hpos]

/-- A user with positive debt and no threshold-weighted collateral: the
pre-shock health factor is exactly zero, not missing. -/
def userZeroHF : UserHealthFactor :=
  ⟨"0xzero",
   [{ user_address := "0xzero", asset_symbol := "AAA", asset_address := "0xa",
      decimals := 0, collateral_balance := 0, variable_debt := 1,
      stable_debt := 0, ltv := 8000, liquidation_threshold := 8000,
      liquidation_bonus := 10500, price_usd := 100000000,
      is_collateral_enabled := true }]⟩

/-- Claim C10: an affected entry's hf_before is null exactly when the
pre-shock health factor is missing or exactly zero, so null does not
exclusively encode the no-debt case; a concrete indebted user with zero
health factor is reported with a null hf_before. -/
theorem C10_hf_before_null_conflation :
    (∀ (u sim : UserHealthFactor) (hf_after : ℚ),
      (affectedEntry u sim hf_after).hf_before = none ↔
        (u.health_factor = none ∨ u.health_factor = some 0)) ∧
    userZeroHF.total_debt_usd = 1 ∧
    userZeroHF.health_factor = some 0 ∧
    (simulate_liquidations [userZeroHF] "0xa" "AAA" 50 (1 / 2)
        (1 / 20)).affected_users =
      [{ user_address := "0xzero", hf_before := none, hf_after := 0,
         collateral_usd := 0, debt_usd := 1 / 2 }] := by
  refine ⟨?_, ?_, ?_, ?_⟩
  · intro u sim hf_after
    unfold affectedEntry
    cases h : u.health_factor with
    | none => simp [h]
    | some q =>
      by_cases hq : q = 0 <;> simp [h, hq]
  · norm_num [userZeroHF, UserHealthFactor.total_debt_usd, UserPosition.debt_usd,
      UserPosition.total_debt, PRICE_DECIMALS]
  · norm_num [userZeroHF, UserHealthFactor.health_factor,
      UserHealthFactor.total_debt_usd, UserHealthFactor.total_collateral_threshold_usd,
      UserPosition.debt_usd, UserPosition.collateral_usd, UserPosition.total_debt,
      UserPosition.liquidation_threshold_decimal, PRICE_DECIMALS, PERCENTAGE_FACTOR]
  · norm_num [simulate_liquidations, simLoop, scanOriginalPrice, firstMatchPrice,
      affectedEntry, userZeroHF, UserHealthFactor.simulate_price_drop,
      UserHealthFactor.health_factor, UserHealthFactor.total_debt_usd,
      UserHealthFactor.total_collateral_threshold_usd,
      UserHealthFactor.total_collateral_usd, UserPosition.debt_usd,
      UserPosition.collateral_usd, UserPosition.total_debt,
      UserPosition.liquidation_threshold_decimal, PRICE_DECIMALS, PERCENTAGE_FACTOR,
      List.insertionSort, List.orderedInsert, List.find?]

/-- A user with health factor two million, far above the top band. -/
def userHuge : UserHealthFactor :=
  ⟨"0xhuge",
   [{ user_address := "0xhuge", asset_symbol := "AAA", asset_address := "0xa",
      decimals := 0, collateral_balance := 2000000, variable_debt := 1,
      stable_debt := 0, ltv := 8000, liquidation_threshold := 10000,
      liquidation_bonus := 10500, price_usd := 100000000,
      is_collateral_enabled := true }]⟩

/-- A user with health factor exactly 1.5. -/
def userMid : UserHealthFactor :=
  ⟨"0xmid",
   [{ user_address := "0xmid", asset_symbol := "AAA", asset_address := "0xa",
      decimals := 0, collateral_balance := 3, variable_debt := 2,
      stable_debt := 0, ltv := 8000, liquidation_threshold := 10000,
      liquidation_bonus := 10500, price_usd := 100000000,
      is_collateral_enabled := true }]⟩

/-- Claim C4 is false: the final band of the distribution is bounded above by
the literal 999999, so a user with health factor two million lands in no
bucket at all, although the claim puts every user with health factor at least
five into the final bucket. -/
theorem C4_counterexample :
    userHuge.health_factor = some 2000000 ∧
    ((5 : ℚ) ≤ 2000000) ∧
    ((buildDistributionFiltered [userHuge]).map HFBucket.count).sum = 0 := by
  refine ⟨?_, by norm_num, ?_⟩
  · norm_num [userHuge, UserHealthFactor.health_factor,
      UserHealthFactor.total_debt_usd, UserHealthFactor.total_collateral_threshold_usd,
      UserPosition.debt_usd, UserPosition.collateral_usd, UserPosition.total_debt,
      UserPosition.liquidation_threshold_decimal, PRICE_DECIMALS, PERCENTAGE_FACTOR]
  · norm_num [buildDistributionFiltered, bucketBounds, inBucket, userHuge,
      UserHealthFactor.health_factor, UserHealthFactor.total_debt_usd,
      UserHealthFactor.total_collateral_threshold_usd, UserPosition.debt_usd,
      UserPosition.collateral_usd, UserPosition.total_debt,
      UserPosition.liquidation_threshold_decimal, PRICE_DECIMALS, PERCENTAGE_FACTOR]

/-- Claim C4 amended: the bands are the seven closed-open intervals of the
table, a user belongs to a band exactly when its health factor exists and
satisfies low ≤ hf < high (so hf exactly 1.5 falls in the 1.5 to 2.0 band),
a user with no health factor is in no band, every health factor in
[1.0, 999999) lies in at least one band and in no two distinct bands, health
factors at or above the literal 999999 lie in no band (the top band is not
unbounded), and each reported bucket carries the count and the summed
collateral and debt of exactly its members. -/
theorem C4_distribution_amended (users : List UserHealthFactor) :
    (∀ (u : UserHealthFactor) (q low high : ℚ), u.health_factor = some q →
      (inBucket low high u = true ↔ (low ≤ q ∧ q < high))) ∧
    (∀ (u : UserHealthFactor) (low high : ℚ), u.health_factor = none →
      inBucket low high u = false) ∧
    (∀ q : ℚ, 1 ≤ q → q < 999999 →
      ∃ b ∈ bucketBounds, b.2.1 ≤ q ∧ q < b.2.2) ∧
    bucketBounds.Pairwise (fun b1 b2 =>
      ∀ q : ℚ, b1.2.1 ≤ q → q < b1.2.2 → ¬(b2.2.1 ≤ q ∧ q < b2.2.2)) ∧
    (∀ q : ℚ, 999999 ≤ q → ∀ b ∈ bucketBounds, ¬(b.2.1 ≤ q ∧ q < b.2.2)) ∧
    buildDistributionFiltered users = bucketBounds.map (fun b =>
      { bucket := b.1
        count := (users.filter (inBucket b.2.1 b.2.2)).length
        total_collateral_usd :=
          ((users.filter (inBucket b.2.1 b.2.2)).map
            UserHealthFactor.total_collateral_usd).sum
        total_debt_usd :=
          ((users.filter (inBucket b.2.1 b.2.2)).map
            UserHealthFactor.total_debt_usd).sum }) := by
  refine ⟨?_, ?_, ?_, ?_, ?_, rfl⟩
  · intro u q low high h
    simp [inBucket, h]
  · intro u low high h
    simp [inBucket, h]
  · intro q h1 h2
    rcases lt_or_le q (11 / 10) with h | h
    · exact ⟨("1.0-1.1", 1, 11 / 10), by simp [bucketBounds], h1, h⟩
    rcases lt_or_le q (5 / 4) with h' | h'
    · exact ⟨("1.1-1.25", 11 / 10, 5 / 4), by simp [bucketBounds], h, h'⟩
    rcases lt_or_le q (3 / 2) with h'' | h''
    · exact ⟨("1.25-1.5", 5 / 4, 3 / 2), by simp [bucketBounds], h', h''⟩
    rcases lt_or_le q 2 with h3 | h3
    · exact ⟨("1.5-2.0", 3 / 2, 2), by simp [bucketBounds], h'', h3⟩
    rcases lt_or_le q 3 with h4 | h4
    · exact ⟨("2.0-3.0", 2, 3), by simp [bucketBounds], h3, h4⟩
    rcases lt_or_le q 5 with h5 | h5
    · exact ⟨("3.0-5.0", 3, 5), by simp [bucketBounds], h4, h5⟩
    · exact ⟨("> 5.0", 5, 999999), by simp [bucketBounds], h5, h2⟩
  · unfold bucketBounds
    repeat
      refine List.Pairwise.cons ?_ ?_
      · intro b hb q hq1 hq2 hq3
        obtain ⟨hq4, hq5⟩ := hq3
        fin_cases hb <;> simp_all <;> linarith
    exact List.Pairwise.nil
  · intro q hq b hb hcon
    obtain ⟨h1, h2⟩ := hcon
    fin_cases hb <;> simp_all <;> linarith

/-- Witness for the amended C4: a user with health factor exactly 1.5 is in
the 1.5 to 2.0 band, not in the 1.25 to 1.5 band, and 1.5 is covered by some
band of the table. -/
theorem C4_distribution_witness :
    (inBucket (3 / 2) 2 userMid = true ∧ inBucket (5 / 4) (3 / 2) userMid = false) ∧
    (∃ b ∈ bucketBounds, b.2.1 ≤ (3 : ℚ) / 2 ∧ (3 : ℚ) / 2 < b.2.2) := by
  have hmid : userMid.health_factor = some (3 / 2) := by
    norm_num [userMid, UserHealthFactor.health_factor,
      UserHealthFactor.total_debt_usd, UserHealthFactor.total_collateral_threshold_usd,
      UserPosition.debt_usd, UserPosition.collateral_usd, UserPosition.total_debt,
      UserPosition.liquidation_threshold_decimal, PRICE_DECIMALS, PERCENTAGE_FACTOR]
  refine ⟨⟨?_, ?_⟩, ?_⟩
  · exact ((C4_distribution_amended []).1 userMid (3 / 2) (3 / 2) 2 hmid).mpr
      ⟨by norm_num, by norm_num⟩
  · have h := ((C4_distribution_amended []).1 userMid (3 / 2) (5 / 4) (3 / 2) hmid)
    rcases hb : inBucket (5 / 4) (3 / 2) userMid with _ | _
    · rfl
    · exact absurd ((h.mp hb).2) (by norm_num)
  · exact (C4_distribution_amended []).2.2.1 (3 / 2) (by norm_num) (by norm_num)

/-- A dust user: fifty dollars of collateral and no debt. -/
def userDust : UserHealthFactor :=
  ⟨"0xdust",
   [{ user_address := "0xdust", asset_symbol := "AAA", asset_address := "0xa",
      decimals := 0, collateral_balance := 50, variable_debt := 0,
      stable_debt := 0, ltv := 8000, liquidation_threshold := 8000,
      liquidation_bonus := 10500, price_usd := 100000000,
      is_collateral_enabled := true }]⟩

/-- Claim C6 is false as stated: the live API route applies no
minimum-collateral floor, so a fifty-dollar user passes straight into the
valid population the route uses for statistics, while the ingest job's
valid population rejects the same user. -/
theorem C6_counterexample :
    userDust.total_collateral_usd = 50 ∧
    ((50 : ℚ) < 100) ∧
    validUsersRoute [userDust] = [userDust] ∧
    validUsersIngest [userDust] = [] := by
  refine ⟨?_, by norm_num, ?_, ?_⟩
  · norm_num [userDust, UserHealthFactor.total_collateral_usd,
      UserPosition.collateral_usd, PRICE_DECIMALS]
  · norm_num [validUsersRoute, hfInclusionOk, userDust,
      UserHealthFactor.total_debt_usd, UserPosition.debt_usd,
      UserPosition.total_debt, PRICE_DECIMALS]
  · norm_num [validUsersIngest, hfInclusionOk, MIN_COLLATERAL_USD, userDust,
      UserHealthFactor.total_debt_usd, UserHealthFactor.total_collateral_usd,
      UserPosition.debt_usd, UserPosition.collateral_usd,
      UserPosition.total_debt, PRICE_DECIMALS]

/-- Claim C6 amended: the two pipelines differ.  The snapshot-ingest job's
valid population holds exactly the users with at least one hundred dollars of
collateral that also pass the health-factor filter (zero debt, or no health
factor, or health factor above one), and its users_excluded holds exactly the
users with at least one hundred dollars of collateral, positive debt and
health factor at most one.  The live API route applies no collateral floor:
its valid population holds exactly the users passing the health-factor
filter, and its users_excluded holds exactly the users with positive debt and
health factor at most one. -/
theorem C6_filters_amended (users : List UserHealthFactor)
    (u : UserHealthFactor) :
    (u ∈ validUsersIngest users ↔ u ∈ users ∧
      MIN_COLLATERAL_USD ≤ u.total_collateral_usd ∧
      (u.total_debt_usd = 0 ∨ u.health_factor = none ∨
        ∃ q, u.health_factor = some q ∧ 1 < q)) ∧
    (u ∈ usersExcludedIngest users ↔ u ∈ users ∧
      MIN_COLLATERAL_USD ≤ u.total_collateral_usd ∧
      0 < u.total_debt_usd ∧ ∃ q, u.health_factor = some q ∧ q ≤ 1) ∧
    (u ∈ validUsersRoute users ↔ u ∈ users ∧
      (u.total_debt_usd = 0 ∨ u.health_factor = none ∨
        ∃ q, u.health_factor = some q ∧ 1 < q)) ∧
    (u ∈ usersExcludedRoute users ↔ u ∈ users ∧
      0 < u.total_debt_usd ∧ ∃ q, u.health_factor = some q ∧ q ≤ 1) := by
  cases h : u.health_factor with
  | none =>
    refine ⟨?_, ?_, ?_, ?_⟩ <;>
      simp [validUsersIngest, usersExcludedIngest, validUsersRoute,
        usersExcludedRoute, List.mem_filter, hfInclusionOk, hfExcluded, h,
        and_assoc]
  | some q =>
    refine ⟨?_, ?_, ?_, ?_⟩ <;>
      simp [validUsersIngest, usersExcludedIngest, validUsersRoute,
        usersExcludedRoute, List.mem_filter, hfInclusionOk, hfExcluded, h,
        and_assoc]

/-- A pathological user with negative stored balances: health factor 6/5 but
negative total debt in dollars. -/
def userNeg : UserHealthFactor :=
  ⟨"0xneg",
   [{ user_address := "0xneg", asset_symbol := "AAA", asset_address := "0xa",
      decimals := 0, collateral_balance := -(6 / 5), variable_debt := -1,
      stable_debt := 0, ltv := 8000, liquidation_threshold := 10000,
      liquidation_bonus := 10500, price_usd := 100000000,
      is_collateral_enabled := true }]⟩

/-- Claim C9 is false as stated: the code counts a user as at risk only for
strictly positive total debt, not for nonzero total debt.  This user has
nonzero (negative) debt, sits in the valid population with health factor 6/5
strictly between 1.0 and 1.5, yet is not counted. -/
theorem C9_counterexample :
    userNeg.health_factor = some (6 / 5) ∧
    ((1 : ℚ) < 6 / 5) ∧ ((6 : ℚ) / 5 < 3 / 2) ∧
    userNeg.total_debt_usd = -1 ∧
    validUsersRoute [userNeg] = [userNeg] ∧
    usersAtRisk (validUsersRoute [userNeg]) = [] := by
  have hhf : userNeg.health_factor = some (6 / 5) := by
    norm_num [userNeg, UserHealthFactor.health_factor,
      UserHealthFactor.total_debt_usd, UserHealthFactor.total_collateral_threshold_usd,
      UserPosition.debt_usd, UserPosition.collateral_usd, UserPosition.total_debt,
      UserPosition.liquidation_threshold_decimal, PRICE_DECIMALS, PERCENTAGE_FACTOR]
  have hdebt : userNeg.total_debt_usd = -1 := by
    norm_num [userNeg, UserHealthFactor.total_debt_usd, UserPosition.debt_usd,
      UserPosition.total_debt, PRICE_DECIMALS]
  have hvalid : validUsersRoute [userNeg] = [userNeg] := by
    simp [validUsersRoute, List.filter, hfInclusionOk, hhf, hdebt]
    norm_num
  refine ⟨hhf, by norm_num, by norm_num, hdebt, hvalid, ?_⟩
  rw [hvalid]
  simp [usersAtRisk, usersWithDebt, List.filter, hdebt]

/-- Claim C9 amended: a user is counted at risk exactly when it belongs to
the valid population, has strictly positive total debt, and its health factor
lies strictly between 1.0 and 1.5 (the bounds themselves are excluded); the
at-risk list is a permutation of exactly those users sorted by health factor
ascending. -/
theorem C9_at_risk_amended (all : List UserHealthFactor) :
    (∀ u, u ∈ usersAtRisk (validUsersRoute all) ↔
      (u ∈ validUsersRoute all ∧ 0 < u.total_debt_usd ∧
        ∃ q, u.health_factor = some q ∧ 1 < q ∧ q < 3 / 2)) ∧
    (atRiskSorted (validUsersRoute all)).Perm (usersAtRisk (validUsersRoute all)) ∧
    (atRiskSorted (validUsersRoute all)).Sorted (fun a b =>
      ∀ qa qb, a.health_factor = some qa → b.health_factor = some qb →
        qa ≤ qb) := by
  have hmem : ∀ u, u ∈ usersAtRisk (validUsersRoute all) ↔
      (u ∈ validUsersRoute all ∧ 0 < u.total_debt_usd ∧
        ∃ q, u.health_factor = some q ∧ 1 < q ∧ q < 3 / 2) := by
    intro u
    simp only [usersAtRisk, usersWithDebt, List.mem_filter, decide_eq_true_eq,
      and_assoc]
    refine and_congr_right (fun _ => and_congr_right (fun _ => ?_))
    cases h : u.health_factor with
    | none => simp [atRiskTest, h]
    | some q =>
      by_cases hq : q = 0
      · simp [atRiskTest, h, hq]
      · simp only [atRiskTest, h, if_neg hq, Bool.and_eq_true, decide_eq_true_eq,
          Option.some.injEq]
        constructor
        · rintro ⟨h1, h2⟩
          exact ⟨q, rfl, h1, h2⟩
        · rintro ⟨q2, hq2, h1, h2⟩
          cases hq2
          exact ⟨h1, h2⟩
  have hkey : ∀ u, u ∈ usersAtRisk (validUsersRoute all) →
      ∃ q, u.health_factor = some q ∧ 1 < q ∧ q < 3 / 2 ∧ atRiskKey u = q := by
    intro u hu
    obtain ⟨_, _, q, hq, h1, h2⟩ := (hmem u).mp hu
    refine ⟨q, hq, h1, h2, ?_⟩
    have : ¬ q = 0 := by intro h0; rw [h0] at h1; norm_num at h1
    simp [atRiskKey, hq, this]
  refine ⟨hmem, List.perm_insertionSort atRiskLE _, ?_⟩
  have hsorted : (atRiskSorted (validUsersRoute all)).Sorted atRiskLE :=
    List.sorted_insertionSort atRiskLE _
  refine hsorted.imp_of_mem ?_
  intro a b ha hb hab
  rw [atRiskSorted, List.mem_insertionSort] at ha hb
  obtain ⟨qa, hqa, _, _, hka⟩ := hkey a ha
  obtain ⟨qb, hqb, _, _, hkb⟩ := hkey b hb
  intro qa2 qb2 hqa2 hqb2
  rw [hqa] at hqa2
  rw [hqb] at hqb2
  cases hqa2
  cases hqb2
  rw [atRiskLE, hka, hkb] at hab
  exact hab

/-- The positions a fixed lowercase key collects while parsing: the usable
records naming that user, in order, each turned into a position. -/
def relevantPositions (rs : List RawUserReserve) (k : String) : List UserPosition :=
  (rs.filter (fun r => usableRecord r && decide (r.userId.pyLower = k))).map mkPosition

theorem lookup_addPosition (acc : List (String × UserHealthFactor))
    (k k0 : String) (pos : UserPosition) :
    List.lookup k (addPosition acc k0 pos) =
      if k = k0 then
        (match List.lookup k acc with
         | none => some ⟨k0, [pos]⟩
         | some u => some ⟨u.user_address, u.positions ++ [pos]⟩)
      else List.lookup k acc := by
  induction acc with
  | nil =>
    by_cases h : k = k0
    · simp [addPosition, List.lookup, h]
    · simp [addPosition, List.lookup, h, beq_false_of_ne h]
  | cons hd tl ih =>
    obtain ⟨k1, u⟩ := hd
    by_cases h10 : k1 = k0
    · subst h10
      by_cases hk : k = k1
      · subst hk
        simp [addPosition, List.lookup]
      · simp [addPosition, List.lookup, hk, beq_false_of_ne hk]
    · by_cases hk : k = k1
      · subst hk
        simp [addPosition, List.lookup, h10]
      · simp [addPosition, List.lookup, h10, beq_false_of_ne hk, hk, ih]

theorem parseAux_lookup (rs : List RawUserReserve) :
    ∀ (acc : List (String × UserHealthFactor)) (k : String),
    List.lookup k (parseAux acc rs) =
      (match List.lookup k acc, relevantPositions rs k with
       | none, [] => none
       | none, ps => some ⟨k, ps⟩
       | some u, ps => some ⟨u.user_address, u.positions ++ ps⟩) := by
  induction rs with
  | nil =>
    intro acc k
    cases h : List.lookup k acc <;>
      simp [parseAux, relevantPositions, h]
  | cons r rest ih =>
    intro acc k
    show List.lookup k (parseAux (parseStep acc r) rest) = _
    rw [ih]
    by_cases hu : usableRecord r
    · by_cases hk : r.userId.pyLower = k
      · have hstep : List.lookup k (parseStep acc r) =
            (match List.lookup k acc with
             | none => some ⟨r.userId.pyLower, [mkPosition r]⟩
             | some u => some ⟨u.user_address, u.positions ++ [mkPosition r]⟩) := by
          rw [parseStep, if_pos hu, lookup_addPosition, if_pos hk.symm]
        have hrel : relevantPositions (r :: rest) k =
            mkPosition r :: relevantPositions rest k := by
          simp [relevantPositions, List.filter, hu, hk]
        rw [hstep, hrel]
        cases h : List.lookup k acc with
        | none =>
          cases h2 : relevantPositions rest k <;> simp [hk]
        | some u =>
          cases h2 : relevantPositions rest k <;> simp
      · have hstep : List.lookup k (parseStep acc r) = List.lookup k acc := by
          rw [parseStep, if_pos hu, lookup_addPosition,
            if_neg (fun he => hk he.symm)]
        have hrel : relevantPositions (r :: rest) k = relevantPositions rest k := by
          simp [relevantPositions, List.filter, hu, hk]
        rw [hstep, hrel]
    · have hstep : List.lookup k (parseStep acc r) = List.lookup k acc := by
        rw [parseStep, if_neg hu]
      have hrel : relevantPositions (r :: rest) k = relevantPositions rest k := by
        simp [relevantPositions, List.filter, Bool.eq_false_iff.mpr hu]
      rw [hstep, hrel]

/-- Claim C7: a record whose reserve has no usable price is silently dropped
(parsing a list beginning with such a record equals parsing its tail); for
every lowercase key the parsed mapping holds exactly the aggregate of that
user's usable records, grouped in order, keyed and labelled by the lowercased
user address; and a parsed position is collateral-enabled exactly when both
the per-user opt-in flag and the reserve-level flag are true. -/
theorem C7_parse_user_reserves_spec :
    (∀ (r : RawUserReserve) (rest : List RawUserReserve),
      usableRecord r = false →
      parse_user_reserves (r :: rest) = parse_user_reserves rest) ∧
    (∀ (rs : List RawUserReserve) (k : String),
      List.lookup k (parse_user_reserves rs) =
        (if relevantPositions rs k = [] then none
         else some ⟨k, relevantPositions rs k⟩)) ∧
    (∀ r : RawUserReserve, (mkPosition r).user_address = r.userId.pyLower) ∧
    (∀ r : RawUserReserve, (mkPosition r).is_collateral_enabled =
      (r.usageAsCollateralEnabledOnUser && r.reserve.usageAsCollateralEnabled)) := by
  refine ⟨?_, ?_, fun _ => rfl, fun _ => rfl⟩
  · intro r rest h
    show parseAux (parseStep [] r) rest = parseAux [] rest
    rw [parseStep, if_neg (by simp [h])]
  · intro rs k
    rw [parse_user_reserves, parseAux_lookup]
    cases h : relevantPositions rs k <;> simp [List.lookup]

/-- A raw record whose reserve carries no price object. -/
def rawNoPrice : RawUserReserve :=
  { userId := "0xUser"
    reserve :=
      { symbol := "AAA", underlyingAsset := "0xA", decimals := 18,
        baseLTVasCollateral := 8000, reserveLiquidationThreshold := 8250,
        reserveLiquidationBonus := 10500, usageAsCollateralEnabled := true,
        price := none }
    currentATokenBalance := 5
    currentVariableDebt := 1
    currentStableDebt := 0
    usageAsCollateralEnabledOnUser := true }

/-- Witness for C7: the concrete priceless record is dropped by the parser. -/
theorem C7_parse_user_reserves_witness :
    usableRecord rawNoPrice = false ∧
    parse_user_reserves [rawNoPrice] = parse_user_reserves [] :=
  ⟨rfl, C7_parse_user_reserves_spec.1 rawNoPrice [] rfl⟩

/-- The affected test of the simulate_liquidations loop: nonzero total debt
and a projected health factor that exists and is below one. -/
def affTest (addr : String) (pct : ℚ) (u : UserHealthFactor) : Bool :=
  !decide (u.total_debt_usd = 0) &&
    (match (u.simulate_price_drop addr pct).health_factor with
     | some h => decide (h < 1)
     | none => false)

/-- The affected entry an affected user contributes. -/
def entryOf (addr : String) (pct : ℚ) (u : UserHealthFactor) : AffectedUser :=
  affectedEntry u (u.simulate_price_drop addr pct)
    (((u.simulate_price_drop addr pct).health_factor).getD 0)

theorem simLoop_spec (addr : String) (pct : ℚ) :
    ∀ (users : List UserHealthFactor) (aff : List AffectedUser) (tc td : ℚ),
    simLoop addr pct users (aff, tc, td) =
      (aff ++ (users.filter (affTest addr pct)).map (entryOf addr pct),
       tc + ((users.filter (affTest addr pct)).map
         (fun u => (u.simulate_price_drop addr pct).total_collateral_usd)).sum,
       td + ((users.filter (affTest addr pct)).map
         (fun u => (u.simulate_price_drop addr pct).total_debt_usd)).sum) := by
  intro users
  induction users with
  | nil => intro aff tc td; simp [simLoop]
  | cons u rest ih =>
    intro aff tc td
    by_cases hd : u.total_debt_usd = 0
    · have ht : affTest addr pct u = false := by
        simp [affTest, hd]
      rw [simLoop, if_pos hd, ih]
      simp [List.filter, ht]
    · rw [simLoop, if_neg hd]
      simp only
      cases hsim : (u.simulate_price_drop addr pct).health_factor with
      | none =>
        have ht : affTest addr pct u = false := by
          simp [affTest, hsim]
        rw [ih]
        simp [List.filter, ht]
      | some h =>
        by_cases hlt : h < 1
        · have ht : affTest addr pct u = true := by
            simp [affTest, hd, hsim, hlt]
          have he : entryOf addr pct u =
              affectedEntry u (u.simulate_price_drop addr pct) h := by
            simp [entryOf, hsim]
          dsimp only
          rw [if_pos hlt, ih]
          simp only [List.filter, ht, List.map, he, List.sum_cons,
            List.append_assoc, List.singleton_append, add_assoc]
        · have ht : affTest addr pct u = false := by
            simp [affTest, hsim, hlt]
          show (if h < 1 then
              simLoop addr pct rest
                (aff ++ [affectedEntry u (u.simulate_price_drop addr pct) h],
                 tc + (u.simulate_price_drop addr pct).total_collateral_usd,
                 td + (u.simulate_price_drop addr pct).total_debt_usd)
            else simLoop addr pct rest (aff, tc, td)) = _
          rw [if_neg hlt, ih]
          simp [List.filter, ht]

/-- A user holding the asset at price zero (first in the population). -/
def userPriceZero : UserHealthFactor :=
  ⟨"0xp0",
   [{ user_address := "0xp0", asset_symbol := "AAA", asset_address := "0xa",
      decimals := 0, collateral_balance := 1, variable_debt := 0,
      stable_debt := 0, ltv := 8000, liquidation_threshold := 8000,
      liquidation_bonus := 10500, price_usd := 0,
      is_collateral_enabled := true }]⟩

/-- A user holding the same asset at price five dollars. -/
def userPriceFive : UserHealthFactor :=
  ⟨"0xp5",
   [{ user_address := "0xp5", asset_symbol := "AAA", asset_address := "0xa",
      decimals := 0, collateral_balance := 1, variable_debt := 0,
      stable_debt := 0, ltv := 8000, liquidation_threshold := 8000,
      liquidation_bonus := 10500, price_usd := 500000000,
      is_collateral_enabled := true }]⟩

/-- A user already below the liquidation threshold before any shock. -/
def userUnderWater : UserHealthFactor :=
  ⟨"0xuw",
   [{ user_address := "0xuw", asset_symbol := "CCC", asset_address := "0xc",
      decimals := 0, collateral_balance := 1, variable_debt := 2,
      stable_debt := 0, ltv := 8000, liquidation_threshold := 8000,
      liquidation_bonus := 10500, price_usd := 100000000,
      is_collateral_enabled := true }]⟩

theorem scanOriginalPrice_spec (addr : String) :
    ∀ (users : List UserHealthFactor) (acc : ℚ), ¬ (0 < acc) →
    scanOriginalPrice addr users acc =
      ((users.filterMap (fun u => firstMatchPrice u addr)).find?
        (fun q => decide (0 < q))).getD
        ((users.filterMap (fun u => firstMatchPrice u addr)).getLastD acc) := by
  intro users
  induction users with
  | nil => intro acc hacc; simp [scanOriginalPrice]
  | cons u rest ih =>
    intro acc hacc
    cases hm : firstMatchPrice u addr with
    | none =>
      rw [scanOriginalPrice]
      simp only [hm, if_neg hacc]
      rw [ih acc hacc]
      simp [List.filterMap_cons, hm]
    | some q =>
      by_cases hq : 0 < q
      · rw [scanOriginalPrice]
        simp only [hm, if_pos hq]
        simp [List.filterMap_cons, hm, List.find?, hq]
      · rw [scanOriginalPrice]
        simp only [hm, if_neg hq]
        rw [ih q hq]
        simp only [List.filterMap_cons, hm]
        have hd : decide (0 < q) = false := by simpa using hq
        simp only [List.find?, hd, List.getLastD_cons]

theorem simulate_price_drop_id_of_no_match (u : UserHealthFactor)
    (addr : String) (pct : ℚ)
    (h : ∀ p ∈ u.positions, p.asset_address.pyLower ≠ addr.pyLower) :
    u.simulate_price_drop addr pct = u := by
  unfold UserHealthFactor.simulate_price_drop
  dsimp only
  have h2 : ∀ p ∈ u.positions,
      (if p.asset_address.pyLower = addr.pyLower then
        { user_address := p.user_address, asset_symbol := p.asset_symbol,
          asset_address := p.asset_address, decimals := p.decimals,
          collateral_balance := p.collateral_balance,
          variable_debt := p.variable_debt, stable_debt := p.stable_debt,
          ltv := p.ltv, liquidation_threshold := p.liquidation_threshold,
          liquidation_bonus := p.liquidation_bonus,
          price_usd := p.price_usd * ((100 - pct) / 100),
          is_collateral_enabled := p.is_collateral_enabled }
      else p) = id p := by
    intro p hp
    rw [if_neg (h p hp)]
    rfl
  rw [List.map_congr_left h2, List.map_id]

theorem simLoop_of_no_new_liquidations (addr : String) (pct : ℚ) :
    ∀ (users : List UserHealthFactor) (acc : List AffectedUser × ℚ × ℚ),
    (∀ u ∈ users, ∀ p ∈ u.positions, p.asset_address.pyLower ≠ addr.pyLower) →
    (∀ u ∈ users, u.is_liquidatable = false) →
    simLoop addr pct users acc = acc := by
  intro users
  induction users with
  | nil => intro acc _ _; rfl
  | cons u rest ih =>
    intro acc hmatch hliq
    obtain ⟨aff, tc, td⟩ := acc
    have hsim : u.simulate_price_drop addr pct = u :=
      simulate_price_drop_id_of_no_match u addr pct
        (hmatch u (List.mem_cons_self u rest))
    have hrest := ih (aff, tc, td)
      (fun v hv => hmatch v (List.mem_cons_of_mem u hv))
      (fun v hv => hliq v (List.mem_cons_of_mem u hv))
    by_cases hd : u.total_debt_usd = 0
    · rw [simLoop, if_pos hd, hrest]
    · rw [simLoop, if_neg hd]
      simp only [hsim]
      have hl := hliq u (List.mem_cons_self u rest)
      cases hhf : u.health_factor with
      | none => simp only [hhf]; exact hrest
      | some h =>
        have : ¬ h < 1 := by
          rw [UserHealthFactor.is_liquidatable, hhf] at hl
          simpa using hl
        simp only [hhf]
        rw [if_neg this]
        exact hrest

/-- Claim C8 is false as stated.  Left half: the first matching position in
the population (the zero-priced one) is not the one whose price is reported;
the scan skips it because its price is not positive.  Right half: with no
matching asset but an already-liquidatable user in the population, the
scenario is not zero-valued. -/
theorem C8_counterexample :
    firstMatchPrice userPriceZero "0xa" = some 0 ∧
    (simulate_liquidations [userPriceZero, userPriceFive] "0xa" "AAA" 0
      (1 / 2) (1 / 20)).original_price_usd = 5 ∧
    (userUnderWater.positions.all (fun p => p.asset_address != "0xzzz")) = true ∧
    (simulate_liquidations [userUnderWater] "0xzzz" "ZZZ" 5
      (1 / 2) (1 / 20)).users_at_risk = 1 := by
  have hne : ¬ ("0xc" : String).pyLower = ("0xzzz" : String).pyLower := by decide
  refine ⟨?_, ?_, ?_, ?_⟩
  · norm_num [firstMatchPrice, userPriceZero, List.find?, PRICE_DECIMALS]
  · norm_num [simulate_liquidations, scanOriginalPrice, firstMatchPrice,
      userPriceZero, userPriceFive, List.find?, PRICE_DECIMALS]
  · decide
  · norm_num [simulate_liquidations, simLoop, scanOriginalPrice, firstMatchPrice,
      affectedEntry, userUnderWater, UserHealthFactor.simulate_price_drop,
      UserHealthFactor.health_factor, UserHealthFactor.total_debt_usd,
      UserHealthFactor.total_collateral_threshold_usd,
      UserHealthFactor.total_collateral_usd, UserPosition.debt_usd,
      UserPosition.collateral_usd, UserPosition.total_debt,
      UserPosition.liquidation_threshold_decimal, PRICE_DECIMALS,
      PERCENTAGE_FACTOR, List.find?, hne]

/-- Claim C8 amended: the simulator is a total function.  Its reported
original price is the result of the scan: users are visited in order, each
user contributes the price of its first matching position, and the scan stops
at the first positive such contribution, otherwise keeping the last one seen,
with zero when no position matches.  The simulated price is the original
times (100 - drop)/100.  On a population with no matching position and no
already-liquidatable user, every aggregate of the scenario is zero and the
affected list is empty. -/
theorem C8_simulate_liquidations_amended (users : List UserHealthFactor)
    (addr sym : String) (pct cf lb : ℚ) :
    (simulate_liquidations users addr sym pct cf lb).original_price_usd =
      ((users.filterMap (fun u => firstMatchPrice u addr)).find?
        (fun q => decide (0 < q))).getD
        ((users.filterMap (fun u => firstMatchPrice u addr)).getLastD 0) ∧
    (simulate_liquidations users addr sym pct cf lb).simulated_price_usd =
      (simulate_liquidations users addr sym pct cf lb).original_price_usd *
        ((100 - pct) / 100) ∧
    ((∀ u ∈ users, ∀ p ∈ u.positions, p.asset_address.pyLower ≠ addr.pyLower) →
      (∀ u ∈ users, u.is_liquidatable = false) →
      (simulate_liquidations users addr sym pct cf lb).original_price_usd = 0 ∧
      (simulate_liquidations users addr sym pct cf lb).users_at_risk = 0 ∧
      (simulate_liquidations users addr sym pct cf lb).users_liquidatable = 0 ∧
      (simulate_liquidations users addr sym pct cf lb).total_collateral_at_risk_usd
        = 0 ∧
      (simulate_liquidations users addr sym pct cf lb).total_debt_at_risk_usd = 0 ∧
      (simulate_liquidations users addr sym pct cf lb).estimated_liquidatable_debt_usd
        = 0 ∧
      (simulate_liquidations users addr sym pct cf lb).estimated_liquidator_profit_usd
        = 0 ∧
      (simulate_liquidations users addr sym pct cf lb).affected_users = []) := by
  refine ⟨scanOriginalPrice_spec addr users 0 (by norm_num), rfl, ?_⟩
  intro hmatch hliq
  have hfm : ∀ u ∈ users, firstMatchPrice u addr = none := by
    intro u hu
    rw [firstMatchPrice]
    cases hf : u.positions.find? (fun p => p.asset_address.pyLower = addr.pyLower) with
    | none => rfl
    | some p =>
      have hp := List.find?_some hf
      have hpm := List.mem_of_find?_eq_some hf
      simp only [decide_eq_true_eq] at hp
      exact absurd hp (hmatch u hu p hpm)
  have hscan : scanOriginalPrice addr users 0 = 0 := by
    rw [scanOriginalPrice_spec addr users 0 (by norm_num)]
    have : users.filterMap (fun u => firstMatchPrice u addr) = [] := by
      rw [List.filterMap_eq_nil_iff]
      exact fun u hu => hfm u hu
    rw [this]
    rfl
  have hloop : simLoop addr pct users ([], 0, 0) = ([], 0, 0) :=
    simLoop_of_no_new_liquidations addr pct users ([], 0, 0) hmatch hliq
  refine ⟨hscan, ?_, ?_, ?_, ?_, ?_, ?_, ?_⟩
  · show (simLoop addr pct users ([], 0, 0)).1.length = 0
    rw [hloop]; rfl
  · show (simLoop addr pct users ([], 0, 0)).1.length = 0
    rw [hloop]; rfl
  · show (simLoop addr pct users ([], 0, 0)).2.1 = 0
    rw [hloop]
  · show (simLoop addr pct users ([], 0, 0)).2.2 = 0
    rw [hloop]
  · show (simLoop addr pct users ([], 0, 0)).2.2 * cf = 0
    rw [hloop]; exact zero_mul cf
  · show (simLoop addr pct users ([], 0, 0)).2.2 * cf * lb = 0
    rw [hloop]; rw [zero_mul, zero_mul]
  · show ((simLoop addr pct users ([], 0, 0)).1.insertionSort hfAfterLE) = []
    rw [hloop]; rfl

/-- Witness for the amended C8: the reference safe user population with an
asset absent from it yields the zero-valued scenario. -/
theorem C8_simulate_liquidations_witness :
    (simulate_liquidations [userSafe] "0xzzz" "ZZZ" 5 (1 / 2)
      (1 / 20)).original_price_usd = 0 ∧
    (simulate_liquidations [userSafe] "0xzzz" "ZZZ" 5 (1 / 2)
      (1 / 20)).users_at_risk = 0 ∧
    (simulate_liquidations [userSafe] "0xzzz" "ZZZ" 5 (1 / 2)
      (1 / 20)).affected_users = [] := by
  have h := (C8_simulate_liquidations_amended [userSafe] "0xzzz" "ZZZ" 5
    (1 / 2) (1 / 20)).2.2 ?_ ?_
  · exact ⟨h.1, h.2.1, h.2.2.2.2.2.2.2⟩
  · intro u hu p hp
    simp only [List.mem_singleton] at hu
    subst hu
    simp only [userSafe, wethPos, usdcPos, List.mem_cons, List.mem_singleton,
      List.not_mem_nil, or_false] at hp
    rcases hp with hp | hp
    · subst hp; decide
    · subst hp; decide
  · intro u hu
    simp only [List.mem_singleton] at hu
    subst hu
    rw [UserHealthFactor.is_liquidatable]
    have hhf : userSafe.health_factor = some (33 / 20) := by
      norm_num [userSafe, wethPos, usdcPos, UserHealthFactor.health_factor,
        UserHealthFactor.total_debt_usd, UserHealthFactor.total_collateral_threshold_usd,
        UserPosition.debt_usd, UserPosition.collateral_usd, UserPosition.total_debt,
        UserPosition.liquidation_threshold_decimal, PRICE_DECIMALS, PERCENTAGE_FACTOR]
    rw [hhf]
    norm_num

/-- In the threshold-weighted collateral sum, filtering on the
collateral-enabled flag is immaterial: disabled positions are already valued
at zero. -/
theorem threshold_sum_over_all (l : List UserPosition) :
    ((l.filter (fun p => p.is_collateral_enabled)).map
      (fun p => p.collateral_usd * p.liquidation_threshold_decimal)).sum =
    (l.map (fun p => p.collateral_usd * p.liquidation_threshold_decimal)).sum := by
  induction l with
  | nil => rfl
  | cons p rest ih =>
    cases hp : p.is_collateral_enabled with
    | true => simp [List.filter, hp, ih]
    | false =>
      have hz : p.collateral_usd = 0 := by
        rw [UserPosition.collateral_usd, if_neg (by simp [hp])]
      simp [List.filter, hp, ih, hz]

/-- The USD debt of a position with nonnegative stored fields is nonnegative. -/
theorem debt_usd_nonneg (p : UserPosition) (hv : 0 ≤ p.variable_debt)
    (hs : 0 ≤ p.stable_debt) (hp : 0 ≤ p.price_usd) : 0 ≤ p.debt_usd := by
  rw [UserPosition.debt_usd, UserPosition.total_debt]
  have h1 : (0 : ℚ) ≤ (p.variable_debt + p.stable_debt) / (10 : ℚ) ^ p.decimals :=
    div_nonneg (add_nonneg hv hs) (by positivity)
  have h2 : (0 : ℚ) ≤ p.price_usd / PRICE_DECIMALS :=
    div_nonneg hp (by rw [PRICE_DECIMALS]; positivity)
  exact mul_nonneg h1 h2

theorem sum_set_of_lt (L : List ℚ) (n : ℕ) (a : ℚ) (h : n < L.length) :
    (L.set n a).sum = L.sum - L.get ⟨n, h⟩ + a := by
  rw [List.sum_set', dif_pos h]
  simp [List.get_eq_getElem]
  ring

/-- Claim C5 amended: with nonnegative stored balances, prices and
thresholds, nonzero total debt, raising the price of one collateral-enabled
position that itself carries no debt can only raise the health factor.  (The
unamended claim fails when the repriced position carries debt, since its USD
debt scales with the same price.) -/
theorem C5_monotonicity_amended (u : UserHealthFactor) (i : ℕ)
    (hi : i < u.positions.length) (np : ℚ)
    (hwf : ∀ q ∈ u.positions, 0 ≤ q.collateral_balance ∧ 0 ≤ q.variable_debt ∧
      0 ≤ q.stable_debt ∧ 0 ≤ q.price_usd ∧ 0 ≤ q.liquidation_threshold)
    (hen : (u.positions.get ⟨i, hi⟩).is_collateral_enabled = true)
    (hnd : (u.positions.get ⟨i, hi⟩).total_debt = 0)
    (hD : u.total_debt_usd ≠ 0)
    (hle : (u.positions.get ⟨i, hi⟩).price_usd ≤ np) :
    ∃ h h2, u.health_factor = some h ∧
      (UserHealthFactor.mk u.user_address
        (u.positions.set i
          { u.positions.get ⟨i, hi⟩ with price_usd := np })).health_factor =
        some h2 ∧ h ≤ h2 := by
  set p := u.positions.get ⟨i, hi⟩ with hp
  set p2 : UserPosition := { p with price_usd := np } with hp2
  set u2 : UserHealthFactor := ⟨u.user_address, u.positions.set i p2⟩ with hu2
  have hpm : p ∈ u.positions := by rw [hp]; exact u.positions.get_mem _ _
  obtain ⟨hcb, hv, hs, hpri, hth⟩ := hwf p hpm
  have hdzero : p.debt_usd = 0 := by
    rw [UserPosition.debt_usd, hnd, zero_div, zero_mul]
  have hnd2 : p2.total_debt = 0 := hnd
  have hdzero2 : p2.debt_usd = 0 := by
    rw [UserPosition.debt_usd, hnd2, zero_div, zero_mul]
  have hlen : i < (u.positions.map UserPosition.debt_usd).length := by
    simpa using hi
  have hDeq : u2.total_debt_usd = u.total_debt_usd := by
    show ((u.positions.set i p2).map UserPosition.debt_usd).sum = _
    rw [List.map_set, sum_set_of_lt _ i _ hlen]
    have hget : (u.positions.map UserPosition.debt_usd).get ⟨i, hlen⟩ =
        p.debt_usd := by
      simp [hp]
    rw [hget, hdzero, hdzero2]
    show u.total_debt_usd - 0 + 0 = u.total_debt_usd
    ring
  have hlen2 : i < (u.positions.map
      (fun q => q.collateral_usd * q.liquidation_threshold_decimal)).length := by
    simpa using hi
  have hNle : u.total_collateral_threshold_usd ≤
      u2.total_collateral_threshold_usd := by
    have e1 : u.total_collateral_threshold_usd =
        (u.positions.map
          (fun q => q.collateral_usd * q.liquidation_threshold_decimal)).sum :=
      threshold_sum_over_all u.positions
    have e2 : u2.total_collateral_threshold_usd =
        ((u.positions.set i p2).map
          (fun q => q.collateral_usd * q.liquidation_threshold_decimal)).sum :=
      threshold_sum_over_all (u.positions.set i p2)
    rw [e1, e2, List.map_set, sum_set_of_lt _ i _ hlen2]
    have hget : (u.positions.map
        (fun q => q.collateral_usd * q.liquidation_threshold_decimal)).get
          ⟨i, hlen2⟩ = p.collateral_usd * p.liquidation_threshold_decimal := by
      simp [hp]
    rw [hget]
    have hen2 : p2.is_collateral_enabled = true := hen
    have hg : p.collateral_usd * p.liquidation_threshold_decimal ≤
        p2.collateral_usd * p2.liquidation_threshold_decimal := by
      have hthr : p2.liquidation_threshold_decimal =
          p.liquidation_threshold_decimal := rfl
      rw [hthr]
      apply mul_le_mul_of_nonneg_right
      · rw [UserPosition.collateral_usd, UserPosition.collateral_usd,
          if_pos hen, if_pos hen2]
        apply mul_le_mul_of_nonneg_left
        · have hPD : (0 : ℚ) < PRICE_DECIMALS := by
            rw [PRICE_DECIMALS]; positivity
          exact (div_le_div_iff_of_pos_right hPD).mpr hle
        · exact div_nonneg hcb (by positivity)
      · exact div_nonneg hth (by rw [PERCENTAGE_FACTOR]; positivity)
    linarith
  have hDnn : 0 ≤ u.total_debt_usd := by
    rw [UserHealthFactor.total_debt_usd]
    apply List.sum_nonneg
    intro x hx
    obtain ⟨q, hq, rfl⟩ := List.mem_map.mp hx
    obtain ⟨_, hv2, hs2, hpq2, _⟩ := hwf q hq
    exact debt_usd_nonneg q hv2 hs2 hpq2
  have hDpos : 0 < u.total_debt_usd := lt_of_le_of_ne hDnn (Ne.symm hD)
  refine ⟨u.total_collateral_threshold_usd / u.total_debt_usd,
    u2.total_collateral_threshold_usd / u2.total_debt_usd, ?_, ?_, ?_⟩
  · rw [UserHealthFactor.health_factor, if_neg hD]
  · rw [UserHealthFactor.health_factor, if_neg (by rw [hDeq]; exact hD)]
  · rw [hDeq]
    exact (div_le_div_iff_of_pos_right hDpos).mpr hNle

/-- The repriced position of the C5 counterexample: collateral-enabled with
one unit of collateral and one hundred units of debt in the same asset. -/
def monoShockPos (price : ℚ) : UserPosition :=
  { user_address := "0xm", asset_symbol := "AAA", asset_address := "0xa",
    decimals := 0, collateral_balance := 1, variable_debt := 100,
    stable_debt := 0, ltv := 8000, liquidation_threshold := 8000,
    liquidation_bonus := 10500, price_usd := price,
    is_collateral_enabled := true }

/-- A fixed one-dollar debt in another asset. -/
def monoDebtPos : UserPosition :=
  { user_address := "0xm", asset_symbol := "BBB", asset_address := "0xb",
    decimals := 0, collateral_balance := 0, variable_debt := 1,
    stable_debt := 0, ltv := 8000, liquidation_threshold := 8000,
    liquidation_bonus := 10500, price_usd := 100000000,
    is_collateral_enabled := false }

/-- A fixed one-dollar collateral in a third asset at full threshold. -/
def monoCollPos : UserPosition :=
  { user_address := "0xm", asset_symbol := "CCC", asset_address := "0xc",
    decimals := 0, collateral_balance := 1, variable_debt := 0,
    stable_debt := 0, ltv := 8000, liquidation_threshold := 10000,
    liquidation_bonus := 10500, price_usd := 100000000,
    is_collateral_enabled := true }

/-- The C5 counterexample user before the price increase. -/
def uMono : UserHealthFactor := ⟨"0xm", [monoShockPos 0, monoDebtPos, monoCollPos]⟩

/-- The same user after raising the shocked position's price from 0 to one
dollar: every other stored field of every position is unchanged. -/
def uMonoUp : UserHealthFactor :=
  ⟨"0xm", [monoShockPos 100000000, monoDebtPos, monoCollPos]⟩

/-- Claim C5 is false as stated: raising the price of a collateral-enabled
position that also carries debt lowers the health factor from 1 to 9/505,
because the position's USD debt grows with the same price. -/
theorem C5_counterexample :
    uMonoUp.positions =
      uMono.positions.set 0 { monoShockPos 0 with price_usd := 100000000 } ∧
    uMonoUp.user_address = uMono.user_address ∧
    (monoShockPos 0).is_collateral_enabled = true ∧
    (monoShockPos 0).price_usd = 0 ∧
    ((0 : ℚ) ≤ 100000000) ∧
    uMono.total_debt_usd = 1 ∧
    uMono.health_factor = some 1 ∧
    uMonoUp.health_factor = some (9 / 505) ∧
    ((9 : ℚ) / 505 < 1) := by
  refine ⟨rfl, rfl, rfl, rfl, by norm_num, ?_, ?_, ?_, by norm_num⟩
  · norm_num [uMono, monoShockPos, monoDebtPos, monoCollPos,
      UserHealthFactor.total_debt_usd, UserPosition.debt_usd,
      UserPosition.total_debt, PRICE_DECIMALS]
  · norm_num [uMono, monoShockPos, monoDebtPos, monoCollPos,
      UserHealthFactor.health_factor, UserHealthFactor.total_debt_usd,
      UserHealthFactor.total_collateral_threshold_usd, UserPosition.debt_usd,
      UserPosition.collateral_usd, UserPosition.total_debt,
      UserPosition.liquidation_threshold_decimal, PRICE_DECIMALS,
      PERCENTAGE_FACTOR]
  · norm_num [uMonoUp, monoShockPos, monoDebtPos, monoCollPos,
      UserHealthFactor.health_factor, UserHealthFactor.total_debt_usd,
      UserHealthFactor.total_collateral_threshold_usd, UserPosition.debt_usd,
      UserPosition.collateral_usd, UserPosition.total_debt,
      UserPosition.liquidation_threshold_decimal, PRICE_DECIMALS,
      PERCENTAGE_FACTOR]

/-- The debt-free collateral position of the C5 witness. -/
def wMonoColl : UserPosition :=
  { user_address := "0xw", asset_symbol := "AAA", asset_address := "0xa",
    decimals := 0, collateral_balance := 1, variable_debt := 0,
    stable_debt := 0, ltv := 8000, liquidation_threshold := 8000,
    liquidation_bonus := 10500, price_usd := 100000000,
    is_collateral_enabled := true }

/-- The fixed debt position of the C5 witness. -/
def wMonoDebt : UserPosition :=
  { user_address := "0xw", asset_symbol := "BBB", asset_address := "0xb",
    decimals := 0, collateral_balance := 0, variable_debt := 1,
    stable_debt := 0, ltv := 8000, liquidation_threshold := 8000,
    liquidation_bonus := 10500, price_usd := 100000000,
    is_collateral_enabled := false }

/-- The C5 witness user. -/
def uMonoW : UserHealthFactor := ⟨"0xw", [wMonoColl, wMonoDebt]⟩

/-- Witness for the amended C5 at a concrete user: doubling the debt-free
collateral position's price cannot lower the health factor. -/
theorem C5_monotonicity_witness :
    ∃ h h2, uMonoW.health_factor = some h ∧
      (UserHealthFactor.mk uMonoW.user_address
        (uMonoW.positions.set 0
          { uMonoW.positions.get ⟨0, by norm_num [uMonoW]⟩ with
            price_usd := 200000000 })).health_factor = some h2 ∧ h ≤ h2 := by
  apply C5_monotonicity_amended uMonoW 0 (by norm_num [uMonoW]) 200000000
  · intro q hq
    simp only [uMonoW, List.mem_cons, List.mem_singleton, List.not_mem_nil,
      or_false] at hq
    rcases hq with hq | hq <;> subst hq <;>
      norm_num [wMonoColl, wMonoDebt]
  · rfl
  · norm_num [uMonoW, wMonoColl, UserPosition.total_debt]
  · norm_num [uMonoW, wMonoColl, wMonoDebt, UserHealthFactor.total_debt_usd,
      UserPosition.debt_usd, UserPosition.total_debt, PRICE_DECIMALS]
  · norm_num [uMonoW, wMonoColl]

/-- Claim C3: the simulator examines exactly the users with nonzero total
debt, marks a user affected exactly when the projected health factor exists
and is below one, counts the affected users, sums their projected collateral
and debt, multiplies the debt at risk by the close factor and that by the
liquidation bonus, and returns the affected entries as a list sorted by
post-shock health factor ascending. -/
theorem C3_simulate_liquidations_spec (users : List UserHealthFactor)
    (addr sym : String) (pct cf lb : ℚ) :
    (∀ u, affTest addr pct u = true ↔
      (u.total_debt_usd ≠ 0 ∧
        ∃ h, (u.simulate_price_drop addr pct).health_factor = some h ∧ h < 1)) ∧
    (simulate_liquidations users addr sym pct cf lb).users_at_risk =
      (users.filter (affTest addr pct)).length ∧
    (simulate_liquidations users addr sym pct cf lb).users_liquidatable =
      (users.filter (affTest addr pct)).length ∧
    (simulate_liquidations users addr sym pct cf lb).total_collateral_at_risk_usd =
      ((users.filter (affTest addr pct)).map
        (fun u => (u.simulate_price_drop addr pct).total_collateral_usd)).sum ∧
    (simulate_liquidations users addr sym pct cf lb).total_debt_at_risk_usd =
      ((users.filter (affTest addr pct)).map
        (fun u => (u.simulate_price_drop addr pct).total_debt_usd)).sum ∧
    (simulate_liquidations users addr sym pct cf lb).estimated_liquidatable_debt_usd =
      (simulate_liquidations users addr sym pct cf lb).total_debt_at_risk_usd * cf ∧
    (simulate_liquidations users addr sym pct cf lb).estimated_liquidator_profit_usd =
      (simulate_liquidations users addr sym pct cf lb).estimated_liquidatable_debt_usd
        * lb ∧
    (simulate_liquidations users addr sym pct cf lb).affected_users.Perm
      ((users.filter (affTest addr pct)).map (entryOf addr pct)) ∧
    (simulate_liquidations users addr sym pct cf lb).affected_users.Sorted
      hfAfterLE := by
  have hloop := simLoop_spec addr pct users [] 0 0
  refine ⟨?_, ?_, ?_, ?_, ?_, rfl, rfl, ?_, ?_⟩
  · intro u
    constructor
    · intro h
      simp only [affTest, Bool.and_eq_true, Bool.not_eq_eq_eq_not, Bool.not_true,
        decide_eq_false_iff_not] at h
      obtain ⟨h1, h2⟩ := h
      refine ⟨h1, ?_⟩
      cases hsim : (u.simulate_price_drop addr pct).health_factor with
      | none => rw [hsim] at h2; exact absurd h2 (by simp)
      | some hq =>
        rw [hsim] at h2
        simp only [decide_eq_true_eq] at h2
        exact ⟨hq, rfl, h2⟩
    · rintro ⟨h1, hq, hsim, hlt⟩
      simp [affTest, h1, hsim, hlt]
  · show (simLoop addr pct users ([], 0, 0)).1.length = _
    rw [hloop]
    simp
  · show (simLoop addr pct users ([], 0, 0)).1.length = _
    rw [hloop]
    simp
  · show (simLoop addr pct users ([], 0, 0)).2.1 = _
    rw [hloop]
    simp
  · show (simLoop addr pct users ([], 0, 0)).2.2 = _
    rw [hloop]
    simp
  · show ((simLoop addr pct users ([], 0, 0)).1.insertionSort hfAfterLE).Perm _
    rw [hloop]
    simp only [List.nil_append]
    exact List.perm_insertionSort hfAfterLE _
  · exact List.sorted_insertionSort hfAfterLE _


/-- Witness for C1 at a concrete user: the no-debt characterization. -/
theorem C1_health_factor_witness :
    (userTight.health_factor = none ↔ userTight.total_debt_usd = 0) :=
  (C1_health_factor_characterization userTight).1

/-- Witness for C2 at a concrete user: a zero drop preserves the health
factor. -/
theorem C2_simulate_price_drop_witness :
    (userTight.simulate_price_drop "0xweth" 0).health_factor =
      userTight.health_factor :=
  (C2_simulate_price_drop_spec userTight "0xweth" 0).2.2

/-- Witness for C3 at a concrete population: the at-risk count equals the
number of affected users. -/
theorem C3_simulate_liquidations_witness :
    (simulate_liquidations [userSafe, userTight] "0xweth" "WETH" 10 (1 / 2)
      (1 / 20)).users_at_risk =
      ([userSafe, userTight].filter (affTest "0xweth" 10)).length :=
  (C3_simulate_liquidations_spec [userSafe, userTight] "0xweth" "WETH" 10
    (1 / 2) (1 / 20)).2.1

/-- Witness for the amended C6 at the dust user: route membership needs only
the health-factor filter. -/
theorem C6_filters_witness :
    userDust ∈ validUsersRoute [userDust] ↔ userDust ∈ [userDust] ∧
      (userDust.total_debt_usd = 0 ∨ userDust.health_factor = none ∨
        ∃ q, userDust.health_factor = some q ∧ 1 < q) :=
  (C6_filters_amended [userDust] userDust).2.2.1

/-- Witness for the amended C9 at a concrete population: the sorted at-risk
list is a permutation of the at-risk users. -/
theorem C9_at_risk_witness :
    (atRiskSorted (validUsersRoute [userTight])).Perm
      (usersAtRisk (validUsersRoute [userTight])) :=
  (C9_at_risk_amended [userTight]).2.1

/-- Witness for C10 at the zero-health-factor user: the entry's hf_before is
null exactly when the health factor is missing or zero. -/
theorem C10_hf_before_witness :
    (affectedEntry userZeroHF userZeroHF 0).hf_before = none ↔
      (userZeroHF.health_factor = none ∨ userZeroHF.health_factor = some 0) :=
  C10_hf_before_null_conflation.1 userZeroHF userZeroHF 0

end RiskEngine
